import Mathlib

/-!
Shallow embedding of `goquirc.go` (package `goquirc`), a Go wrapper around the
quirc QR-decoding C library.

The quirc engine itself is external to this repository (it is linked as a C
library), so its behaviour during one scan is modelled by an `Engine` record:
whether `quirc_new` succeeds, whether `quirc_resize` succeeds, the list of
candidates the scan locates (each with the `quirc_code` produced by
`quirc_extract` and, when `quirc_decode` succeeds, the `quirc_data` it fills
in), and the static version string returned by `quirc_version`.

The Go orchestration code is translated operation by operation.  `Reveal`
additionally produces a trace of engine events (create / resize / load / end /
extract / decode / destroy, with `defer qr.Destroy()` modelled by appending the
destroy event on every exit path reached after a successful create, including
the Go panic raised by an out-of-range slice index inside `Load`), so that
resource-lifecycle properties can be stated.  Byte strings are modelled as
`List Nat`.
-/

namespace Goquirc

/-- Structure `Position` (goquirc.go lines 23-26): a location in the input
image buffer. -/
structure Position where
  X : Int
  Y : Int
  deriving DecidableEq

/-- Corner point of `C.struct_quirc_code` (the engine's `qr.code.corners[k]`
fields read at lines 139-152). -/
structure QuircPoint where
  x : Int
  y : Int
  deriving DecidableEq

/-- Model of `C.struct_quirc_code`: the fields of the engine's per-candidate
record that goquirc.go reads (four corners and `size`). -/
structure QuircCode where
  corners0 : QuircPoint
  corners1 : QuircPoint
  corners2 : QuircPoint
  corners3 : QuircPoint
  size : Int
  deriving DecidableEq

/-- Model of `C.struct_quirc_data`: the fields of the engine's decode output
that goquirc.go reads, plus the engine-reported `payload_len` field (which the
Go code never reads). -/
structure QuircData where
  version : Int
  ecc_level : Int
  mask : Int
  data_type : Int
  payload : List Nat
  payload_len : Nat
  deriving DecidableEq

/-- Structure `QRcode` (goquirc.go lines 29-38).  `Corners` is the Go array
`[4]Position`, modelled as a list built with exactly four entries;
`Payload` is a Go string, modelled as its byte list. -/
structure QRcode where
  Corners : List Position
  Size : Int
  Version : Int
  ECCLevel : Int
  Mask : Int
  DataType : Int
  Payload : List Nat
  PayloadLength : Nat
  deriving DecidableEq

/-- Structure `Result` (goquirc.go lines 41-45).  `Found` is `Count()`'s
value (a list length, hence `Nat`); `Usable` is decremented in the Go code, so
it is kept as `Int` and its non-negativity is proved, not assumed. -/
structure Result where
  Found : Nat
  Usable : Int
  Code : List QRcode
  deriving DecidableEq

/-- Model of the fields of the Go `Processing` struct that survive across
calls: the context handle `qrStruct` (`none` models a nil pointer) and the
scratch `code` / `data` records. -/
structure Processing where
  qrStruct : Option Unit
  code : QuircCode
  data : QuircData
  deriving DecidableEq

/-- Behaviour of the external quirc engine during one scan: outcome of
`quirc_new`, outcome of `quirc_resize`, the candidate list the completed scan
yields (`quirc_count` is its length; entry `i` is what `quirc_extract i`
selects, with `decoded = some d` when `quirc_decode` succeeds filling `d`
and `none` when it fails), and the `quirc_version` string. -/
structure Candidate where
  code : QuircCode
  decoded : Option QuircData
  deriving DecidableEq

/-- Engine behaviour record for one `Reveal` call (see `Candidate`). -/
structure Engine where
  version : String
  createOk : Bool
  resizeOk : Bool
  candidates : List Candidate
  deriving DecidableEq

/-- Error string of `Create` (goquirc.go line 55). -/
def allocErr : String := "Failed to allocate memory"

/-- Error string of `Resize` (goquirc.go line 68). -/
def videoErr : String := "Failed to allocate video memory"

/-- Zero value of `Result` (`var result Result` at line 116). -/
def zeroResult : Result := ⟨0, 0, []⟩

/-- Method `Version` (goquirc.go lines 48-50): returns
`C.GoString(C.quirc_version())`, a static engine string, and leaves the
receiver untouched. -/
def Version (eng : Engine) (qr : Processing) : String × Processing :=
  (eng.version, qr)

/-- Repeated calls of `Version` on the same receiver, collecting the returned
strings and threading the receiver state. -/
def versionCalls : Nat → Processing → Engine → List String × Processing
  | 0, qr, _ => ([], qr)
  | n + 1, qr, eng =>
    let out := Version eng qr
    let rest := versionCalls n out.2 eng
    (out.1 :: rest.1, rest.2)

/-- Method `Create` (goquirc.go lines 53-58): `qr.qrStruct = C.quirc_new()`
is assigned first, then compared against nil.  `newOk` is the engine's
allocation outcome. -/
def Create (newOk : Bool) (qr : Processing) : Processing × Option String :=
  let qr' : Processing := { qr with qrStruct := if newOk then some () else none }
  if newOk then (qr', none) else (qr', some allocErr)

/-- Model of `C.GoString` applied to `&qr.data.payload[0]` (lines 157-158):
C-string semantics, the bytes up to the first NUL byte. -/
def goString (bytes : List Nat) : List Nat :=
  bytes.takeWhile (fun b => b ≠ 0)

/-- The `QRcode` literal built at goquirc.go lines 136-160 from the engine's
current `quirc_code` and `quirc_data`. -/
def mkQRcode (code : QuircCode) (data : QuircData) : QRcode :=
  { Corners := [⟨code.corners0.x, code.corners0.y⟩,
                ⟨code.corners1.x, code.corners1.y⟩,
                ⟨code.corners2.x, code.corners2.y⟩,
                ⟨code.corners3.x, code.corners3.y⟩]
    DataType := data.data_type
    ECCLevel := data.ecc_level
    Mask := data.mask
    Payload := goString data.payload
    PayloadLength := (goString data.payload).length
    Size := code.size
    Version := data.version }

/-- The copy loop of `Load` (goquirc.go lines 100-105):
`for i = 0; i < imageSize; i++ { data[i] = image[i] }`, recursing on the
number `k` of remaining iterations (so `i` counts up exactly as in Go).
Reading `image[i]` past the end of the Go slice panics, modelled as `none`;
a successful run returns the updated destination buffer. -/
def copyFrom (image : List Nat) (buf : List Nat) (i : Nat) : Nat → Option (List Nat)
  | 0 => some buf
  | k + 1 =>
    match image[i]? with
    | none => none
    | some b => copyFrom image (buf.set i b) (i + 1) k

/-- Method `Load` (goquirc.go lines 92-106): `quirc_begin` hands back the
engine's internal `w*h`-byte buffer `buf` and the context dimensions, the
copy length is computed as `imageSize = w*h - 1`, and that many bytes are
copied starting at index 0 (the loop body does not run when `w*h - 1 <= 0`,
which `Int.toNat` captures). -/
def Load (image : List Nat) (w h : Int) (buf : List Nat) : Option (List Nat) :=
  copyFrom image buf 0 (w * h - 1).toNat

/-- Engine events recorded while `Reveal` runs, used to state resource and
ordering properties of one scan. -/
inductive Event where
  | createEv (ok : Bool)
  | destroyEv
  | resizeEv (ok : Bool)
  | loadEv
  | endEv
  | extractEv (i : Nat)
  | decodeEv (ok : Bool)
  deriving DecidableEq

/-- Outcome of one `Reveal` call: a Go `(Result, error)` return, or a Go
runtime panic (index out of range inside `Load`). -/
inductive Outcome where
  | ret (result : Result) (error : Option String)
  | panicked
  deriving DecidableEq

/-- Test whether an event is the destroy event. -/
def isDestroy : Event → Bool
  | Event.destroyEv => true
  | _ => false

/-- Number of destroy events in a trace. -/
def destroyCount (tr : List Event) : Nat :=
  tr.countP isDestroy

/-- The candidate loop of `Reveal` (goquirc.go lines 133-164): for each
candidate in extraction order, `Extract(i)` then `Decode()`; on success the
built `QRcode` is appended to `result.Code`, on failure `result.Usable` is
decremented and the loop continues.  Returns the final result and the
extract/decode event trace. -/
def revealLoop (i : Nat) (cands : List Candidate) (res : Result) :
    Result × List Event :=
  match cands with
  | [] => (res, [])
  | c :: rest =>
    match c.decoded with
    | some d =>
      let out := revealLoop (i + 1) rest
        { res with Code := res.Code ++ [mkQRcode c.code d] }
      (out.1, Event.extractEv i :: Event.decodeEv true :: out.2)
    | none =>
      let out := revealLoop (i + 1) rest { res with Usable := res.Usable - 1 }
      (out.1, Event.extractEv i :: Event.decodeEv false :: out.2)

/-- Method `Reveal` (goquirc.go lines 115-167).  Steps, exactly as in the Go
code: `Create` (early return on failure, nothing yet to release), `defer
Destroy` (the destroy event is emitted on every later exit, the panic path
included), `Resize` (early return on failure), `Load` (may panic on a short
source buffer; there is no size validation in the code), `End`, then
`Count` and the candidate loop, and a nil-error return.  The engine buffer
handed out by `quirc_begin` holds `w*h` bytes. -/
def Reveal (eng : Engine) (image : List Nat) (w h : Int) :
    Outcome × List Event :=
  if eng.createOk then
    if eng.resizeOk then
      match Load image w h (List.replicate (w * h).toNat 0) with
      | none =>
        (Outcome.panicked,
         [Event.createEv true, Event.resizeEv true, Event.destroyEv])
      | some _ =>
        let found := eng.candidates.length
        let out := revealLoop 0 eng.candidates ⟨found, (found : Int), []⟩
        (Outcome.ret out.1 none,
         Event.createEv true :: Event.resizeEv true :: Event.loadEv ::
           Event.endEv :: (out.2 ++ [Event.destroyEv]))
    else
      (Outcome.ret zeroResult (some videoErr),
       [Event.createEv true, Event.resizeEv false, Event.destroyEv])
  else
    (Outcome.ret zeroResult (some allocErr), [Event.createEv false])

/-- Number of candidates whose `Decode` fails. -/
def decodeFailures : List Candidate → Nat
  | [] => 0
  | c :: rest => (if c.decoded.isNone then 1 else 0) + decodeFailures rest

/-- The `QRcode`s of the successfully decoded candidates, in extraction
order, one entry per success and no entry for a failure. -/
def successes : List Candidate → List QRcode
  | [] => []
  | c :: rest =>
    match c.decoded with
    | some d => mkQRcode c.code d :: successes rest
    | none => successes rest

/-- Concrete `quirc_code` with all-zero fields, for candidates whose content
is irrelevant. -/
def zeroCode : QuircCode := ⟨⟨0, 0⟩, ⟨0, 0⟩, ⟨0, 0⟩, ⟨0, 0⟩, 0⟩

/-- Concrete all-zero `quirc_data`. -/
def zeroData : QuircData := ⟨0, 0, 0, 0, [], 0⟩

/-- Concrete `quirc_code` of a cleanly decodable candidate. -/
def cleanCode : QuircCode := ⟨⟨1, 2⟩, ⟨3, 4⟩, ⟨5, 6⟩, ⟨7, 8⟩, 21⟩

/-- Concrete `quirc_data` of a cleanly decoded candidate
(payload bytes `"HI"` followed by a NUL). -/
def cleanData : QuircData := ⟨2, 1, 3, 4, [72, 73, 0], 2⟩

/-- Concrete `quirc_data` whose payload bytes contain an interior NUL and
whose engine-reported `payload_len` field (4) differs from the C-string
length (2). -/
def hiData : QuircData := ⟨1, 0, 2, 4, [72, 73, 0, 65], 4⟩

/-- When the source image holds at least `i + k` bytes, the copy loop starting
at index `i` with `k` iterations left never reads out of range. -/
theorem copyFrom_isSome (image : List Nat) :
    ∀ (k i : Nat) (buf : List Nat), i + k ≤ image.length →
      ∃ out, copyFrom image buf i k = some out := by
  intro k
  induction k with
  | zero =>
    intro i buf _
    exact ⟨buf, rfl⟩
  | succ k ih =>
    intro i buf h
    have hi : i < image.length := by omega
    have hb : image[i]? = some image[i] := List.getElem?_eq_getElem hi
    obtain ⟨out, hout⟩ := ih (i + 1) (buf.set i image[i]) (by omega)
    exact ⟨out, by simp [copyFrom, hb, hout]⟩

/-- Counting the successfully decoded candidates and the failed ones
partitions the candidate list. -/
theorem successes_length (cands : List Candidate) :
    (successes cands).length + decodeFailures cands = cands.length := by
  induction cands with
  | nil => simp [successes, decodeFailures]
  | cons c rest ih =>
    cases hd : c.decoded <;>
      simp [successes, decodeFailures, hd] <;> omega

/-- Effect of the candidate loop on the accumulated result: `Found` is
untouched, `Usable` drops by one per decode failure, and the decoded symbols
of the successful candidates are appended in order. -/
theorem revealLoop_spec (cands : List Candidate) :
    ∀ (i : Nat) (res : Result),
      (revealLoop i cands res).1.Found = res.Found ∧
      (revealLoop i cands res).1.Usable
          = res.Usable - (decodeFailures cands : Int) ∧
      (revealLoop i cands res).1.Code = res.Code ++ successes cands := by
  induction cands with
  | nil =>
    intro i res
    simp [revealLoop, decodeFailures, successes]
  | cons c rest ih =>
    intro i res
    cases hd : c.decoded with
    | some d =>
      have h := ih (i + 1) { res with Code := res.Code ++ [mkQRcode c.code d] }
      refine ⟨?_, ?_, ?_⟩ <;>
        simp [revealLoop, hd, decodeFailures, successes, h.1, h.2.1, h.2.2]
    | none =>
      have h := ih (i + 1) { res with Usable := res.Usable - 1 }
      refine ⟨?_, ?_, ?_⟩
      · simp [revealLoop, hd, h.1]
      · simp [revealLoop, hd, decodeFailures, h.2.1]
        ring
      · simp [revealLoop, hd, successes, h.2.2]

/-- The candidate loop never emits a destroy event. -/
theorem revealLoop_no_destroy (cands : List Candidate) :
    ∀ (i : Nat) (res : Result),
      destroyCount (revealLoop i cands res).2 = 0 := by
  induction cands with
  | nil =>
    intro i res
    simp [revealLoop, destroyCount]
  | cons c rest ih =>
    intro i res
    cases hd : c.decoded with
    | some d =>
      have h := ih (i + 1) { res with Code := res.Code ++ [mkQRcode c.code d] }
      simp [revealLoop, hd, destroyCount, List.countP_cons, isDestroy] at h ⊢
      exact h
    | none =>
      have h := ih (i + 1) { res with Usable := res.Usable - 1 }
      simp [revealLoop, hd, destroyCount, List.countP_cons, isDestroy] at h ⊢
      exact h

/-- Shape of any error-free `Reveal` return: the `Result` fields in terms of
the engine's candidate list. -/
theorem reveal_success_shape (eng : Engine) (image : List Nat) (w h : Int)
    (res : Result) (tr : List Event)
    (hret : Reveal eng image w h = (Outcome.ret res none, tr)) :
    res.Found = eng.candidates.length ∧
    res.Usable
        = (eng.candidates.length : Int) - (decodeFailures eng.candidates : Int) ∧
    res.Code = successes eng.candidates := by
  cases hc : eng.createOk with
  | false =>
    rw [Reveal] at hret
    simp [hc] at hret
  | true =>
    cases hr : eng.resizeOk with
    | false =>
      rw [Reveal] at hret
      simp [hc, hr] at hret
    | true =>
      cases hl : Load image w h (List.replicate (w * h).toNat 0) with
      | none =>
        rw [Reveal] at hret
        simp [hc, hr, hl] at hret
      | some buf =>
        rw [Reveal] at hret
        simp [hc, hr, hl] at hret
        have hs := revealLoop_spec eng.candidates 0
          ⟨eng.candidates.length, (eng.candidates.length : Int), []⟩
        obtain ⟨hres, -⟩ := hret
        refine ⟨?_, ?_, ?_⟩ <;> rw [← hres]
        · exact hs.1
        · simpa using hs.2.1
        · simpa using hs.2.2

/-- Every decoded symbol in `successes` comes from a candidate whose decode
succeeded, and is exactly the `QRcode` built from that candidate's data. -/
theorem successes_mem (cands : List Candidate) :
    ∀ q ∈ successes cands, ∃ c ∈ cands, ∃ d,
      c.decoded = some d ∧ q = mkQRcode c.code d := by
  induction cands with
  | nil => simp [successes]
  | cons c rest ih =>
    intro q hq
    cases hd : c.decoded with
    | some d =>
      rw [successes, hd] at hq
      rcases List.mem_cons.mp hq with hq | hq
      · exact ⟨c, List.mem_cons_self c rest, d, hd, hq⟩
      · obtain ⟨c', hc', d', hd', hq'⟩ := ih q hq
        exact ⟨c', List.mem_cons_of_mem c hc', d', hd', hq'⟩
    | none =>
      rw [successes, hd] at hq
      obtain ⟨c', hc', d', hd', hq'⟩ := ih q hq
      exact ⟨c', List.mem_cons_of_mem c hc', d', hd', hq'⟩

/-- C1: REFUTED ON THE CODE (code bug).  The spec requires `Reveal` to return
an `InvalidBufferSizeError` when the pixel buffer holds fewer than `w*h`
bytes, detected before any byte is copied.  The code performs no size
validation at all and no such error value exists in it: with a 3-byte buffer
and `w = h = 2` the scan runs to completion and returns a `Result` with a nil
error, and with a 1-byte buffer the copy loop indexes past the end of the
slice and panics. -/
theorem reveal_short_buffer_unchecked :
    Reveal ⟨"v", true, true, []⟩ [0, 0, 0] 2 2 =
      (Outcome.ret ⟨0, 0, []⟩ none,
       [Event.createEv true, Event.resizeEv true, Event.loadEv, Event.endEv,
        Event.destroyEv]) ∧
    Reveal ⟨"v", true, true, []⟩ [0] 2 2 =
      (Outcome.panicked,
       [Event.createEv true, Event.resizeEv true, Event.destroyEv]) :=
  ⟨rfl, rfl⟩

/-- C2: REFUTED ON THE CODE (code bug).  The spec requires `Load` to copy the
full `w*h` bytes byte-for-byte; the code computes the copy length as
`imageSize = w*h - 1` (goquirc.go line 102).  With `w = h = 2` and source
bytes `[1, 2, 3, 4]`, only the first three bytes reach the engine buffer:
destination byte 3 keeps its old value `0` instead of source byte `4`. -/
theorem load_copies_one_byte_short :
    Load [1, 2, 3, 4] 2 2 (List.replicate 4 0) = some [1, 2, 3, 0] := rfl

/-- C3: every `Reveal` call that returns without error yields a `Result` with
`0 ≤ Usable ≤ Found`, `Usable` equal to the length of the decoded-symbol
list, and `Found - Usable` equal to the number of candidates whose decode
failed. -/
theorem reveal_result_invariants (eng : Engine) (image : List Nat) (w h : Int)
    (res : Result) (tr : List Event)
    (hret : Reveal eng image w h = (Outcome.ret res none, tr)) :
    0 ≤ res.Usable ∧ res.Usable ≤ (res.Found : Int) ∧
    (res.Code.length : Int) = res.Usable ∧
    (res.Found : Int) - res.Usable = (decodeFailures eng.candidates : Int) := by
  obtain ⟨h1, h2, h3⟩ := reveal_success_shape eng image w h res tr hret
  have hlen := successes_length eng.candidates
  have hcode : res.Code.length = (successes eng.candidates).length := by
    rw [h3]
  rw [h1, h2, hcode]
  refine ⟨?_, ?_, ?_, ?_⟩ <;> omega

/-- Witness for C3 at a one-candidate engine whose sole decode fails:
`Found = 1`, `Usable = 0`, empty symbol list. -/
theorem reveal_result_invariants_witness :
    0 ≤ (⟨1, 0, []⟩ : Result).Usable ∧
    (⟨1, 0, []⟩ : Result).Usable ≤ (((⟨1, 0, []⟩ : Result).Found : Nat) : Int) ∧
    (((⟨1, 0, []⟩ : Result).Code.length : Int) = (⟨1, 0, []⟩ : Result).Usable) ∧
    (((⟨1, 0, []⟩ : Result).Found : Nat) : Int) - (⟨1, 0, []⟩ : Result).Usable
        = (decodeFailures [⟨zeroCode, none⟩] : Int) :=
  reveal_result_invariants ⟨"v", true, true, [⟨zeroCode, none⟩]⟩ [0] 1 1
    ⟨1, 0, []⟩
    [Event.createEv true, Event.resizeEv true, Event.loadEv, Event.endEv,
     Event.extractEv 0, Event.decodeEv false, Event.destroyEv] rfl

/-- C4: once context creation and resize succeed (and the copy loop stays in
bounds, i.e. `Reveal` returns at all instead of panicking), `Reveal` returns
the candidate loop's aggregate `Result` together with a nil error, no matter
how many per-candidate decodes fail: decode failures only decrement `Usable`
and skip the append. -/
theorem reveal_decode_failures_not_fatal (eng : Engine) (image : List Nat)
    (w h : Int) (hc : eng.createOk = true) (hr : eng.resizeOk = true)
    (hl : (w * h - 1).toNat ≤ image.length) :
    (Reveal eng image w h).1 =
      Outcome.ret
        (revealLoop 0 eng.candidates
          ⟨eng.candidates.length, (eng.candidates.length : Int), []⟩).1
        none := by
  obtain ⟨out, hout⟩ := copyFrom_isSome image ((w * h - 1).toNat) 0
    (List.replicate (w * h).toNat 0) (by omega)
  rw [Int.pred_toNat] at hout
  rw [Reveal]
  simp [hc, hr, Load, hout]

/-- Witness for C4 at a two-candidate engine with one failing and one
succeeding decode. -/
theorem reveal_decode_failures_not_fatal_witness :
    (Reveal ⟨"v", true, true,
        [⟨zeroCode, none⟩, ⟨zeroCode, some zeroData⟩]⟩ [0] 1 1).1 =
      Outcome.ret
        (revealLoop 0 [⟨zeroCode, none⟩, ⟨zeroCode, some zeroData⟩]
          ⟨2, (2 : Int), []⟩).1 none :=
  reveal_decode_failures_not_fatal
    ⟨"v", true, true, [⟨zeroCode, none⟩, ⟨zeroCode, some zeroData⟩]⟩
    [0] 1 1 rfl rfl (by decide)

/-- C5: on every exit path of `Reveal` — successful return, early return on a
`Resize` failure, and the panic raised by an out-of-range read in `Load` —
the context is destroyed exactly once when `Create` succeeded, and never when
`Create` failed. -/
theorem reveal_destroy_exactly_once (eng : Engine) (image : List Nat)
    (w h : Int) :
    destroyCount (Reveal eng image w h).2 = if eng.createOk then 1 else 0 := by
  cases hc : eng.createOk with
  | false =>
    simp [Reveal, hc, destroyCount, List.countP_cons, isDestroy]
  | true =>
    cases hr : eng.resizeOk with
    | false =>
      simp [Reveal, hc, hr, destroyCount, List.countP_cons, isDestroy]
    | true =>
      cases hl : Load image w h (List.replicate (w * h).toNat 0) with
      | none =>
        simp [Reveal, hc, hr, hl, destroyCount, List.countP_cons, isDestroy]
      | some buf =>
        have h := revealLoop_no_destroy eng.candidates 0
          ⟨eng.candidates.length, (eng.candidates.length : Int), []⟩
        simp [Reveal, hc, hr, hl, destroyCount, List.countP_cons,
          List.countP_append, isDestroy] at h ⊢
        exact h

/-- C6: the decoded-symbol list of an error-free scan is exactly the
`QRcode`s of the successfully decoded candidates in extraction order (failed
candidates omitted, not placeholdered), with `Found` the candidate count and
`Usable` the success count. -/
theorem reveal_code_sequence (eng : Engine) (image : List Nat) (w h : Int)
    (res : Result) (tr : List Event)
    (hret : Reveal eng image w h = (Outcome.ret res none, tr)) :
    res.Code = successes eng.candidates ∧
    res.Found = eng.candidates.length ∧
    res.Usable
        = (eng.candidates.length : Int) - (decodeFailures eng.candidates : Int) := by
  obtain ⟨h1, h2, h3⟩ := reveal_success_shape eng image w h res tr hret
  exact ⟨h3, h1, h2⟩

/-- Witness for C6 at a two-candidate engine whose first candidate is
corrupted (decode fails) and whose second is clean: `Found = 2`,
`Usable = 1`, and the single entry is the clean candidate's symbol. -/
theorem reveal_code_sequence_witness :
    (⟨2, 1, [mkQRcode cleanCode cleanData]⟩ : Result).Code
        = successes [⟨zeroCode, none⟩, ⟨cleanCode, some cleanData⟩] ∧
    (⟨2, 1, [mkQRcode cleanCode cleanData]⟩ : Result).Found
        = ([⟨zeroCode, none⟩, ⟨cleanCode, some cleanData⟩] : List Candidate).length ∧
    (⟨2, 1, [mkQRcode cleanCode cleanData]⟩ : Result).Usable
        = (([⟨zeroCode, none⟩, ⟨cleanCode, some cleanData⟩] : List Candidate).length : Int)
          - (decodeFailures [⟨zeroCode, none⟩, ⟨cleanCode, some cleanData⟩] : Int) :=
  reveal_code_sequence
    ⟨"v", true, true, [⟨zeroCode, none⟩, ⟨cleanCode, some cleanData⟩]⟩
    [0] 1 1 ⟨2, 1, [mkQRcode cleanCode cleanData]⟩
    [Event.createEv true, Event.resizeEv true, Event.loadEv, Event.endEv,
     Event.extractEv 0, Event.decodeEv false, Event.extractEv 1,
     Event.decodeEv true, Event.destroyEv] rfl

/-- C7: with a successfully created and resized context, an in-bounds copy,
and zero located candidates, `Reveal` returns `Found = 0`, `Usable = 0`, an
empty symbol list, and a nil error. -/
theorem reveal_zero_candidates (eng : Engine) (image : List Nat) (w h : Int)
    (hc : eng.createOk = true) (hr : eng.resizeOk = true)
    (hl : (w * h - 1).toNat ≤ image.length)
    (hz : eng.candidates = []) :
    (Reveal eng image w h).1 = Outcome.ret ⟨0, 0, []⟩ none := by
  obtain ⟨out, hout⟩ := copyFrom_isSome image ((w * h - 1).toNat) 0
    (List.replicate (w * h).toNat 0) (by omega)
  rw [Int.pred_toNat] at hout
  rw [Reveal]
  simp [hc, hr, Load, hout, hz, revealLoop]

/-- Witness for C7 at an engine that locates no candidate. -/
theorem reveal_zero_candidates_witness :
    (Reveal ⟨"v", true, true, []⟩ [0] 1 1).1 = Outcome.ret ⟨0, 0, []⟩ none :=
  reveal_zero_candidates ⟨"v", true, true, []⟩ [0] 1 1 rfl rfl (by decide) rfl

/-- C8: a `Create` or `Resize` failure aborts the whole scan: `Reveal`
returns the zero-valued `Result` together with that failure's error, and the
event trace — given in full — contains no extract or decode event (and a
destroy only when create had succeeded).  Moreover a failed `Create` on a
fresh receiver (nil context handle) leaves the receiver unchanged. -/
theorem reveal_setup_failure_aborts (eng : Engine) (image : List Nat)
    (w h : Int) (hfail : eng.createOk = false ∨ eng.resizeOk = false) :
    Reveal eng image w h =
      (Outcome.ret zeroResult
        (some (if eng.createOk then videoErr else allocErr)),
       if eng.createOk then
         [Event.createEv true, Event.resizeEv false, Event.destroyEv]
       else [Event.createEv false]) ∧
    ∀ (c : QuircCode) (d : QuircData),
      (Create false ⟨none, c, d⟩).1 = ⟨none, c, d⟩ := by
  constructor
  · cases hc : eng.createOk with
    | false => simp [Reveal, hc]
    | true =>
      have hr : eng.resizeOk = false := by
        rcases hfail with h | h
        · rw [hc] at h
          exact absurd h (by simp)
        · exact h
      simp [Reveal, hc, hr]
  · intro c d
    rfl

/-- Witness for C8 at an engine whose allocation fails. -/
theorem reveal_setup_failure_aborts_witness :
    Reveal ⟨"v", false, true, []⟩ [0] 1 1 =
      (Outcome.ret zeroResult (some allocErr), [Event.createEv false]) :=
  (reveal_setup_failure_aborts ⟨"v", false, true, []⟩ [0] 1 1 (Or.inl rfl)).1

/-- C9: any number of repeated `Version()` calls return the engine's version
string every time and leave the receiver state unchanged (pure, idempotent
query). -/
theorem version_pure_idempotent (eng : Engine) (qr : Processing) (n : Nat) :
    (versionCalls n qr eng).1 = List.replicate n eng.version ∧
    (versionCalls n qr eng).2 = qr := by
  induction n with
  | zero => simp [versionCalls]
  | succ n ih => simp [versionCalls, Version, ih.1, ih.2, List.replicate_succ]

/-- C10: every `QRcode` appended to `Result.Code` by `Reveal` has
`PayloadLength` equal to the length of `Payload`, both equal to the engine's
payload bytes truncated at the first NUL byte (`goString`, the `C.GoString`
semantics) — for every value of the engine's `payload_len` field, which the
code never reads. -/
theorem payload_cstring_semantics (eng : Engine) (image : List Nat)
    (w h : Int) (res : Result) (tr : List Event)
    (hret : Reveal eng image w h = (Outcome.ret res none, tr)) :
    ∀ q ∈ res.Code, q.PayloadLength = q.Payload.length ∧
      ∃ c ∈ eng.candidates, ∃ d, c.decoded = some d ∧
        q.Payload = goString d.payload ∧
        q.PayloadLength = (goString d.payload).length := by
  intro q hq
  obtain ⟨-, -, h3⟩ := reveal_success_shape eng image w h res tr hret
  rw [h3] at hq
  obtain ⟨c, hc, d, hd, hq'⟩ := successes_mem eng.candidates q hq
  subst hq'
  exact ⟨rfl, c, hc, d, hd, rfl, rfl⟩

/-- Witness for C10 at an engine whose sole candidate decodes with payload
bytes `[72, 73, 0, 65]` and engine-reported `payload_len = 4`: the appended
symbol carries `Payload = [72, 73]` and `PayloadLength = 2`. -/
theorem payload_cstring_semantics_witness :
    (mkQRcode zeroCode hiData).PayloadLength
        = (mkQRcode zeroCode hiData).Payload.length ∧
    ∃ c ∈ [(⟨zeroCode, some hiData⟩ : Candidate)], ∃ d, c.decoded = some d ∧
      (mkQRcode zeroCode hiData).Payload = goString d.payload ∧
      (mkQRcode zeroCode hiData).PayloadLength = (goString d.payload).length :=
  payload_cstring_semantics ⟨"v", true, true, [⟨zeroCode, some hiData⟩]⟩
    [0] 1 1 ⟨1, 1, [mkQRcode zeroCode hiData]⟩
    [Event.createEv true, Event.resizeEv true, Event.loadEv, Event.endEv,
     Event.extractEv 0, Event.decodeEv true, Event.destroyEv] rfl
    (mkQRcode zeroCode hiData) (List.mem_cons_self _ _)

end Goquirc
